import Mathlib

/-!
Shallow embedding of the player engine of `playlist_mgr` (src/player.rs),
together with theorems checking the natural-language specification against it.

Modelling conventions:
* `PathBuf` becomes `Song := String`.
* `VecDeque<PathBuf> history` becomes a `List Song` whose head is the FRONT
  (oldest entry); `push_back` appends at the end, `pop_front` drops the head.
* `Vec<PathBuf> playlist` becomes a `List Song` whose last element is the top
  of the stack; `Vec::push` appends at the end, `Vec::pop` removes the last.
* `Option<BlockingWrapper<UnixStream>> control_pipe` carries no observable
  data, so it is modelled by a `Bool` (`true` = a control pipe is live).
* `Instant` is a `Nat` (milliseconds); `Duration::from_secs(2)` is `2000`.
* Effects outside the state (bytes written to the control pipe, the `Confirm`
  acknowledgment) are collected in an explicit trace of `Event`s, in the order
  the code performs them.  Log lines and the stdout display line carry no
  state and are not modelled.
* Nondeterministic inputs of one command dispatch (the random index drawn in
  `Mode::Random`, success of the `mpv` spawn, `Instant::now()`) are supplied
  by an `Env` record.  `gen_range(0, len)` is modelled as `rand % len`.
* The two `assert!` calls in `Player::start` only abort on states that no
  call site reachable under the hypotheses below produces (every caller
  either checked `control_pipe.is_none()` or has just cleared it, and
  `current` is clear whenever the pipe is); they are modelled as no-ops.
-/

abbrev Song := String

inductive Mode where
  | Random
  | Sequence
  | Circular
deriving Repr, DecidableEq

inductive Cmd where
  | Play
  | Stop
  | Next
  | Prev
  | Load (songs : List Song) (app : Bool)
  | SetMode (m : Mode)
  | Confirm
  | Done
deriving Repr, DecidableEq

/-- Observable effects of processing a command, in program order. -/
inductive Event where
  | ctl (msg : String)
  | ack
deriving Repr, DecidableEq

/-- Nondeterministic inputs consumed while processing one command. -/
structure Env where
  rand : Nat
  spawnOk : Bool
  now : Nat
deriving Repr, DecidableEq

structure Player where
  mode : Mode
  songs : List Song
  history : List Song
  playlist : List Song
  current : Option Song
  should_play : Bool
  position : Nat
  control_pipe : Bool
  last_start : Option Nat
deriving Repr, DecidableEq

def Player.new : Player :=
  { mode := Mode.Random
    songs := []
    history := []
    playlist := []
    current := none
    should_play := false
    position := 0
    control_pipe := false
    last_start := none }

/-- The cursor adjustment of `choose_song`'s `match self.mode` block: the value
`self.position` holds right before `self.songs.get(self.position)`. -/
def normPos (mode : Mode) (rand : Nat) (len pos : Nat) : Nat :=
  match mode with
  | Mode.Random => rand % len
  | Mode.Sequence => if pos > len then 0 else pos
  | Mode.Circular => if pos ≥ len then 0 else pos

/-- `Player::choose_song` (player.rs:89-110): pop the playlist if possible,
otherwise select from `songs` per mode, bumping the cursor afterwards.  The
Rust `songs.get(position).cloned()` is the checked lookup `List.get?`. -/
def Player.choose_song (rand : Nat) (p : Player) : Option Song × Player :=
  match p.playlist.getLast? with
  | some song => (some song, { p with playlist := p.playlist.dropLast })
  | none =>
    if p.songs.isEmpty then
      (none, p)
    else
      let pos := normPos p.mode rand p.songs.length p.position
      (p.songs.get? pos, { p with position := pos + 1 })

/-- The `while self.history.len() > 100 { self.history.pop_front(); }` loop of
`Player::done`, structurally recursive on the deque. -/
def trimHistory : List Song → List Song
  | [] => []
  | x :: xs => if (x :: xs).length > 100 then trimHistory xs else x :: xs

/-- `Player::start` (player.rs:113-179).  `choose_song` yielding nothing, or a
failed spawn, clears `should_play`; a successful spawn stores the pipe, the
current song and the start time.  (The background watcher that will enqueue
`Done` lives outside the state.) -/
def Player.start (e : Env) (p : Player) : Player × List Event :=
  match p.choose_song e.rand with
  | (some song, q) =>
    if e.spawnOk then
      ({ q with control_pipe := true, current := some song, last_start := some e.now }, [])
    else
      ({ q with should_play := false }, [])
  | (none, q) =>
    ({ q with should_play := false }, [])

/-- `Player::send_mpv`: write to the control pipe when one is live, silently
drop the bytes otherwise. -/
def Player.send_mpv (key : String) (p : Player) : Player × List Event :=
  if p.control_pipe then (p, [Event.ctl key]) else (p, [])

def Player.pause (p : Player) : Player × List Event :=
  p.send_mpv "pause\n"

def Player.stop_song (p : Player) : Player × List Event :=
  p.send_mpv "quit\n"

def Player.play_pause (e : Env) (p : Player) : Player × List Event :=
  let p := { p with should_play := true }
  if p.control_pipe then p.pause else p.start e

def Player.next (e : Env) (p : Player) : Player × List Event :=
  let p := { p with should_play := true }
  if p.control_pipe then p.stop_song else p.start e

/-- `Player::prev` (player.rs:214-236): push `current` back onto the playlist,
decide `restart` from `last_start` (taking it), when not restarting move the
most recent history entry on top, and when the playlist ended up non-empty
delegate to `next`. -/
def Player.prev (e : Env) (p : Player) : Player × List Event :=
  let p :=
    match p.current with
    | some current => { p with current := none, playlist := p.playlist ++ [current] }
    | none => p
  let restart :=
    match p.last_start with
    | some last => decide (e.now - last > 2000)
    | none => false
  let p := { p with last_start := none }
  let p :=
    if restart then p
    else
      match p.history.getLast? with
      | some prevSong =>
        { p with history := p.history.dropLast, playlist := p.playlist ++ [prevSong] }
      | none => p
  if p.playlist.isEmpty then (p, []) else p.next e

def Player.stop (p : Player) : Player × List Event :=
  let p := { p with should_play := false }
  p.stop_song

/-- `Player::done` (player.rs:73-87): archive `current` into the bounded
history, clear the pipe and the start time, auto-advance when
`should_play` still holds. -/
def Player.done (e : Env) (p : Player) : Player × List Event :=
  let p :=
    match p.current with
    | some current =>
      { p with current := none, history := trimHistory (p.history ++ [current]) }
    | none => p
  let p := { p with control_pipe := false, last_start := none }
  if p.should_play then p.start e else (p, [])

/-- `Player::cmd` (player.rs:247-271): dispatch one dequeued command. -/
def Player.cmd (e : Env) (c : Cmd) (p : Player) : Player × List Event :=
  match c with
  | Cmd.Play => p.play_pause e
  | Cmd.Stop => p.stop
  | Cmd.Next => p.next e
  | Cmd.Prev => p.prev e
  | Cmd.Load songs app =>
    if app then ({ p with songs := p.songs ++ songs }, [])
    else ({ p with songs := songs, position := 0 }, [])
  | Cmd.SetMode m => ({ p with mode := m }, [])
  | Cmd.Confirm => (p, [Event.ack])
  | Cmd.Done => p.done e

/-- The actor loop of `start_player`: process a queue of commands strictly in
FIFO order, concatenating their effect traces. -/
def runCmds (p : Player) : List (Cmd × Env) → Player × List Event
  | [] => (p, [])
  | (c, e) :: rest =>
    let r := p.cmd e c
    let r2 := runCmds r.1 rest
    (r2.1, r.2 ++ r2.2)

/-- Repeated `choose_song` calls, collecting the returned songs. -/
def chooseMany (rand : Nat) (p : Player) : Nat → List (Option Song) × Player
  | 0 => ([], p)
  | n + 1 =>
    let r := p.choose_song rand
    let r2 := chooseMany rand r.2 n
    (r.1 :: r2.1, r2.2)

/-! ### Helper lemmas -/

theorem choose_song_frame (r : Nat) (p : Player) :
    (p.choose_song r).2.mode = p.mode ∧
    (p.choose_song r).2.songs = p.songs ∧
    (p.choose_song r).2.history = p.history ∧
    (p.choose_song r).2.current = p.current ∧
    (p.choose_song r).2.should_play = p.should_play ∧
    (p.choose_song r).2.control_pipe = p.control_pipe ∧
    (p.choose_song r).2.last_start = p.last_start := by
  unfold Player.choose_song
  cases p.playlist.getLast? <;> simp
  split <;> simp

theorem start_history (e : Env) (p : Player) :
    (p.start e).1.history = p.history := by
  unfold Player.start
  rcases h : p.choose_song e.rand with ⟨s, q⟩
  have hq : q.history = p.history := by
    have := (choose_song_frame e.rand p).2.2.1
    rw [h] at this
    exact this
  cases s <;> simp [hq]
  split <;> simp [hq]

/-! ### C1 -/

/-- The concrete state of the spec's Sequence example. -/
def seqABC : Player :=
  { Player.new with songs := ["a", "b", "c"], mode := Mode.Sequence, position := 0 }

/-- C1 counterexample: from `songs=[a,b,c]`, mode=Sequence, `position=0`, empty
playlist, the FOURTH `choose_song` call returns `none` rather than `a`, and
`position` ends at `4` rather than `1`: at entry to the fourth call
`position = 3`, the Sequence guard `3 > 3` fails, and the checked access at
index 3 yields nothing. -/
theorem c1_counterexample :
    (chooseMany 0 seqABC 4).1 = [some "a", some "b", some "c", none] ∧
    (chooseMany 0 seqABC 4).2.position = 4 := by
  constructor <;> rfl

/-- C1 (amended): for `songs=[a,b,c]`, mode=Sequence, `position=0`, empty
playlist, FIVE successive `choose_song` calls return `a, b, c, none, a`; the
fourth call returns `none` (the guard `3 > 3` fails and the checked access at
index 3 misses) leaving `position = 4`, and the reset to 0 happens only on the
fifth call (`position = 4 > 3`), which returns `a` and leaves `position = 1`. -/
theorem c1_amended :
    (chooseMany 0 seqABC 5).1 = [some "a", some "b", some "c", none, some "a"] ∧
    (chooseMany 0 seqABC 4).2.position = 4 ∧
    (chooseMany 0 seqABC 5).2.position = 1 := by
  refine ⟨rfl, rfl, rfl⟩

/-! ### C5 -/

/-- C5: with a non-empty playlist, `choose_song` returns the last (most
recently pushed) playlist element, removes it from the playlist, and leaves
`songs`, `position` and `mode` (and every other field) unchanged — playlist
entries are consumed before any mode-driven selection from `songs`. -/
theorem c5_playlist_pop (p : Player) (r : Nat) (s : Song) (l : List Song)
    (h : p.playlist = l ++ [s]) :
    (p.choose_song r).1 = some s ∧
    (p.choose_song r).2.playlist = l ∧
    (p.choose_song r).2.songs = p.songs ∧
    (p.choose_song r).2.position = p.position ∧
    (p.choose_song r).2.mode = p.mode ∧
    (p.choose_song r).2.history = p.history ∧
    (p.choose_song r).2.current = p.current ∧
    (p.choose_song r).2.should_play = p.should_play := by
  unfold Player.choose_song
  rw [h]
  simp

/-- Concrete input for the C5 witness. -/
def stackXY : Player :=
  { Player.new with playlist := ["x", "y"], songs := ["a"], position := 7 }

/-- C5 witness at `playlist = [x, y]`. -/
theorem c5_playlist_pop_witness :
    (stackXY.choose_song 0).1 = some "y" ∧
    (stackXY.choose_song 0).2.playlist = ["x"] ∧
    (stackXY.choose_song 0).2.songs = stackXY.songs ∧
    (stackXY.choose_song 0).2.position = stackXY.position ∧
    (stackXY.choose_song 0).2.mode = stackXY.mode ∧
    (stackXY.choose_song 0).2.history = stackXY.history ∧
    (stackXY.choose_song 0).2.current = stackXY.current ∧
    (stackXY.choose_song 0).2.should_play = stackXY.should_play :=
  c5_playlist_pop stackXY 0 "y" ["x"] rfl

/-! ### C6 -/

/-- C6: `Load s false` replaces `songs` with `s` and resets `position` to 0,
`Load s true` appends `s` to `songs`; in both cases every other field (mode,
playlist, history, current, should_play, control_pipe, last_start — and for
the append case also position) is unchanged and no event is emitted. -/
theorem c6_load (p : Player) (e : Env) (s : List Song) :
    p.cmd e (Cmd.Load s false) = ({ p with songs := s, position := 0 }, []) ∧
    p.cmd e (Cmd.Load s true) = ({ p with songs := p.songs ++ s }, []) := by
  constructor <;> rfl

/-! ### C2 -/

/-- One-song Sequence state with the cursor at the start. -/
def seqEdge0 : Player :=
  { Player.new with songs := ["a"], mode := Mode.Sequence, position := 0 }

/-- One-song Sequence state with the cursor just past the last index. -/
def seqEdge : Player :=
  { Player.new with songs := ["a"], mode := Mode.Sequence, position := 1 }

/-- C2 counterexample: `seqEdge` has non-empty `songs`, an empty playlist and
mode Sequence, yet `choose_song` returns `none` — not an element of `songs`:
at `position = songs.length = 1` the guard `1 > 1` fails, so the cursor is NOT
normalized before the (checked) access at index 1, which misses.  The state is
reached from `position = 0` by a single prior `choose_song` call. -/
theorem c2_counterexample :
    seqEdge.songs ≠ [] ∧ seqEdge.playlist = [] ∧ seqEdge.mode = Mode.Sequence ∧
    (seqEdge0.choose_song 0).2 = seqEdge ∧
    (seqEdge.choose_song 0).1 = none := by
  refine ⟨by decide, rfl, rfl, by decide, rfl⟩

/-- C2 (amended): for every state with non-empty `songs` and empty playlist,
`choose_song` never accesses `songs` out of bounds (the lookup is the checked
`get`); under Circular the cursor is normalized before the access and some
element of `songs` is always returned; under Sequence the same holds whenever
`position ≠ songs.length`, but at `position = songs.length` the guard
`position > len` fails and the call returns `none`, the reset to 0 happening
only on the following call. -/
theorem c2_amended (p : Player) (r : Nat) (hs : p.songs ≠ []) (hpl : p.playlist = []) :
    (p.mode = Mode.Circular → ∃ s ∈ p.songs, (p.choose_song r).1 = some s) ∧
    (p.mode = Mode.Sequence → p.position ≠ p.songs.length →
      ∃ s ∈ p.songs, (p.choose_song r).1 = some s) ∧
    (p.mode = Mode.Sequence → p.position = p.songs.length →
      (p.choose_song r).1 = none) := by
  have hlen : 0 < p.songs.length := List.length_pos.mpr hs
  have hne : p.songs.isEmpty = false := by simp [List.isEmpty_iff, hs]
  have key : ∀ n, n < p.songs.length → ∃ s ∈ p.songs, p.songs[n]? = some s :=
    fun n h => ⟨p.songs.get ⟨n, h⟩, List.get_mem _ _ _, by
      rw [List.getElem?_eq_getElem h]; rfl⟩
  refine ⟨?_, ?_, ?_⟩
  · intro hm
    simp [Player.choose_song, hpl, hne, normPos, hm]
    split
    · exact key 0 hlen
    · next h => exact key p.position (by omega)
  · intro hm hpos
    simp [Player.choose_song, hpl, hne, normPos, hm]
    split
    · exact key 0 hlen
    · next h => exact key p.position (by omega)
  · intro hm hpos
    simp [Player.choose_song, hpl, hne, normPos, hm]
    split
    · next h => omega
    · simp [hpos, List.getElem?_len_le (le_refl _)]

/-- Two-song Circular state past the end, used as the C2 witness input. -/
def circAB : Player :=
  { Player.new with songs := ["a", "b"], mode := Mode.Circular, position := 2 }

/-- C2 witness at `songs = [a, b]`, Circular, `position = 2`. -/
theorem c2_amended_witness :
    circAB.songs ≠ [] ∧ circAB.playlist = [] ∧
    ((circAB.mode = Mode.Circular → ∃ s ∈ circAB.songs, (circAB.choose_song 0).1 = some s) ∧
     (circAB.mode = Mode.Sequence → circAB.position ≠ circAB.songs.length →
       ∃ s ∈ circAB.songs, (circAB.choose_song 0).1 = some s) ∧
     (circAB.mode = Mode.Sequence → circAB.position = circAB.songs.length →
       (circAB.choose_song 0).1 = none)) :=
  ⟨by decide, rfl, c2_amended circAB 0 (by decide) rfl⟩

/-! ### C4 -/

theorem trimHistory_of_le (h : List Song) (hle : h.length ≤ 100) : trimHistory h = h := by
  cases h with
  | nil => rfl
  | cons x xs =>
    have h2 : ¬ (100 < xs.length + 1) := by simp at hle; omega
    simp [trimHistory, h2]

theorem trimHistory_eq (h : List Song) (hle : h.length ≤ 101) :
    trimHistory h = if 100 < h.length then h.tail else h := by
  cases h with
  | nil => rfl
  | cons x xs =>
    by_cases h100 : 100 < (x :: xs).length
    · rw [if_pos h100]
      have hxs : xs.length ≤ 100 := by simp at hle; omega
      simp only [trimHistory, gt_iff_lt, if_pos h100]
      rw [trimHistory_of_le xs hxs]
      rfl
    · rw [if_neg h100, trimHistory_of_le _ (by omega)]

/-- C4: from any state with at most 100 history entries, `done` leaves at most
100 entries; when `current = some c` the new history is the old one (its
front — the oldest entry — evicted exactly when the bound was already hit)
with `c` appended at the back; when `current = none` the history is
unchanged. -/
theorem c4_history_bound (p : Player) (e : Env) (hle : p.history.length ≤ 100) :
    (p.done e).1.history.length ≤ 100 ∧
    (∀ c, p.current = some c →
      (p.done e).1.history =
        (if p.history.length = 100 then p.history.tail else p.history) ++ [c]) ∧
    (p.current = none → (p.done e).1.history = p.history) := by
  have hsplit : ∀ (b : Bool) (q : Player),
      ((if b = true then q.start e else (q, [])).1).history = q.history := by
    intro b q
    split
    · exact start_history e q
    · rfl
  rcases hc : p.current with _ | c
  · have hh : (p.done e).1.history = p.history := by
      simp [Player.done, hc, hsplit]
    refine ⟨by rw [hh]; exact hle, ?_, fun _ => hh⟩
    intro c hcc
    exact absurd hcc (by simp)
  · have htrim : trimHistory (p.history ++ [c]) =
        (if p.history.length = 100 then p.history.tail else p.history) ++ [c] := by
      rw [trimHistory_eq _ (by simp; omega)]
      by_cases h100 : p.history.length = 100
      · rw [if_pos (by simp; omega), if_pos h100]
        rcases hh : p.history with _ | ⟨y, ys⟩
        · rw [hh] at h100; simp at h100
        · simp
      · rw [if_neg (by simp; omega), if_neg h100]
    have hh : (p.done e).1.history = trimHistory (p.history ++ [c]) := by
      simp [Player.done, hc, hsplit]
    refine ⟨?_, ?_, ?_⟩
    · rw [hh, htrim]
      by_cases h100 : p.history.length = 100
      · rw [if_pos h100]
        simp [List.length_tail]
        omega
      · rw [if_neg h100]
        simp
        omega
    · intro c2 hcc
      injection hcc with hcc
      subst hcc
      rw [hh, htrim]
    · intro hcc
      exact absurd hcc (by simp)

/-- A default environment for witnesses. -/
def env0 : Env := { rand := 0, spawnOk := true, now := 0 }

/-- Finishing state for the C4 witness: two history entries, a current song. -/
def histP : Player :=
  { Player.new with history := ["h1", "h2"], current := some "c", should_play := false }

/-- C4 witness at a 2-entry history with `current = some "c"`. -/
theorem c4_history_bound_witness :
    histP.history.length ≤ 100 ∧
    ((histP.done env0).1.history.length ≤ 100 ∧
     (∀ c, histP.current = some c →
       (histP.done env0).1.history =
         (if histP.history.length = 100 then histP.history.tail else histP.history) ++ [c]) ∧
     (histP.current = none → (histP.done env0).1.history = histP.history)) :=
  ⟨by decide, c4_history_bound histP env0 (by decide)⟩

/-! ### C3 -/

theorem start_iff (e : Env) (p : Player) (hpipe : p.control_pipe = false)
    (hcur : p.current = none) :
    (p.start e).1.current.isSome = (p.start e).1.control_pipe := by
  have hq := choose_song_frame e.rand p
  obtain ⟨-, -, -, hqc, -, hqp, -⟩ := hq
  rcases hcs : p.choose_song e.rand with ⟨_ | s, q⟩ <;>
    rw [hcs] at hqc hqp <;> simp only at hqc hqp
  · simp [Player.start, hcs, hqc, hcur, hqp, hpipe]
  · simp only [Player.start, hcs]
    split
    · simp
    · simp [hqc, hcur, hqp, hpipe]

theorem next_forward (e : Env) (q : Player) (hq : q.current = none) :
    (q.next e).1.current.isSome = true → (q.next e).1.control_pipe = true := by
  simp only [Player.next]
  split
  · next hp =>
    intro _
    simp only [Player.stop_song, Player.send_mpv]
    split <;> simpa using hp
  · next hp =>
    intro h
    have hiff := start_iff e { q with should_play := true } (by simpa using hp) (by simp [hq])
    rw [← hiff]
    exact h

theorem prev_forward (e : Env) (p : Player) :
    (p.prev e).1.current.isSome = true → (p.prev e).1.control_pipe = true := by
  have key : ∀ q : Player, q.current = none →
      ((if q.playlist.isEmpty then (q, []) else q.next e).1.current.isSome = true →
       (if q.playlist.isEmpty then (q, []) else q.next e).1.control_pipe = true) := by
    intro q hq
    split
    · intro h
      simp [hq] at h
    · exact next_forward e q hq
  simp only [Player.prev]
  cases hc : p.current
  · exact key _ (by split <;> split <;> simp_all)
  · exact key _ (by split <;> split <;> simp_all)

theorem done_iff (e : Env) (p : Player) :
    (p.done e).1.current.isSome = (p.done e).1.control_pipe := by
  have key : ∀ (b : Bool) (q : Player), q.control_pipe = false → q.current = none →
      ((if b = true then q.start e else (q, [])).1.current.isSome =
       (if b = true then q.start e else (q, [])).1.control_pipe) := by
    intro b q hp hc
    split
    · exact start_iff e q hp hc
    · simp [hc, hp]
  cases hc : p.current
  · simp only [Player.done, hc]
    apply key <;> simp [hc]
  · simp only [Player.done, hc]
    apply key <;> simp

/-- A Playing-state instance of the claimed invariant, used to refute C3. -/
def pPlay : Player :=
  { Player.new with current := some "a", control_pipe := true,
                    should_play := true, last_start := some 0 }

/-- C3 counterexample: `pPlay` satisfies `current` set iff pipe live, yet
processing `Prev` leaves `current = none` with the control pipe still live
(`prev` takes `current` while the subprocess keeps running until its own
`Done` arrives), so the iff invariant is not preserved by the `Prev`
dispatch. -/
theorem c3_counterexample :
    (pPlay.current.isSome = pPlay.control_pipe) ∧
    (pPlay.cmd env0 Cmd.Prev).1.current = none ∧
    (pPlay.cmd env0 Cmd.Prev).1.control_pipe = true := by
  refine ⟨rfl, by decide, by decide⟩

/-- C3 (amended): the invariant holds (as the full iff) in the initial state;
the direction "current is Some only if the control pipe is live" is preserved
by every command dispatch assuming only that same direction — so it chains
through the `current = none`/pipe-live states `Prev` produces; and from a
state satisfying the full iff, every command EXCEPT `Prev` preserves the full
iff. -/
theorem c3_amended (p : Player) (e : Env) (c : Cmd)
    (h : p.current.isSome = true → p.control_pipe = true) :
    (Player.new.current.isSome = Player.new.control_pipe) ∧
    ((p.cmd e c).1.current.isSome = true → (p.cmd e c).1.control_pipe = true) ∧
    (p.current.isSome = p.control_pipe → c ≠ Cmd.Prev →
      (p.cmd e c).1.current.isSome = (p.cmd e c).1.control_pipe) := by
  have hiff : ∀ c' : Cmd, c' ≠ Cmd.Prev → p.current.isSome = p.control_pipe →
      (p.cmd e c').1.current.isSome = (p.cmd e c').1.control_pipe := by
    intro c' hne hfull
    cases c' with
    | Play =>
      simp only [Player.cmd, Player.play_pause]
      split
      · next hp =>
        simp only [Player.pause, Player.send_mpv]
        split <;> simp_all
      · next hp =>
        refine start_iff e _ (by simpa using hp) ?_
        have h2 : p.current.isSome = false := by rw [hfull]; simpa using hp
        have h3 : p.current = none := by
          cases hq : p.current
          · rfl
          · rw [hq] at h2; simp at h2
        simpa using h3
    | Stop =>
      simp only [Player.cmd, Player.stop, Player.stop_song, Player.send_mpv]
      split <;> simp_all
    | Next =>
      simp only [Player.cmd, Player.next]
      split
      · next hp =>
        simp only [Player.stop_song, Player.send_mpv]
        split <;> simp_all
      · next hp =>
        refine start_iff e _ (by simpa using hp) ?_
        have h2 : p.current.isSome = false := by rw [hfull]; simpa using hp
        have h3 : p.current = none := by
          cases hq : p.current
          · rfl
          · rw [hq] at h2; simp at h2
        simpa using h3
    | Prev => exact absurd rfl hne
    | Load songs app =>
      simp only [Player.cmd]
      split <;> simpa using hfull
    | SetMode m =>
      simpa [Player.cmd] using hfull
    | Confirm =>
      simpa [Player.cmd] using hfull
    | Done => exact done_iff e p
  refine ⟨rfl, ?_, fun hfull hne => hiff c hne hfull⟩
  cases c with
  | Play =>
    simp only [Player.cmd, Player.play_pause]
    split
    · next hp =>
      intro _
      simp only [Player.pause, Player.send_mpv]
      split <;> simpa using hp
    · next hp =>
      have h3 : p.current = none := by
        cases hq : p.current with
        | none => rfl
        | some v =>
          have hp2 : p.control_pipe = true := h (by rw [hq]; rfl)
          exact absurd hp2 hp
      intro hh
      rw [← start_iff e _ (by simpa using hp) (by simpa using h3)]
      exact hh
  | Stop =>
    simp only [Player.cmd, Player.stop, Player.stop_song, Player.send_mpv]
    split <;> exact fun hh => h hh
  | Next =>
    simp only [Player.cmd, Player.next]
    split
    · next hp =>
      intro _
      simp only [Player.stop_song, Player.send_mpv]
      split <;> simpa using hp
    · next hp =>
      have h3 : p.current = none := by
        cases hq : p.current with
        | none => rfl
        | some v =>
          have hp2 : p.control_pipe = true := h (by rw [hq]; rfl)
          exact absurd hp2 hp
      intro hh
      rw [← start_iff e _ (by simpa using hp) (by simpa using h3)]
      exact hh
  | Prev => exact prev_forward e p
  | Load songs app => cases app <;> exact fun hh => h hh
  | SetMode m => exact fun hh => h hh
  | Confirm => exact fun hh => h hh
  | Done =>
    simp only [Player.cmd]
    intro hh
    rw [← done_iff e p]
    exact hh

/-- C3 witness at a post-`Prev` state (no current, pipe live — satisfying the
one-directional hypothesis but not the full iff) dispatching `Stop`. -/
def pMidPrev : Player :=
  { Player.new with playlist := ["a"], should_play := true, control_pipe := true }

/-- C3 witness: the one-directional invariant survives `Stop` from the state
`Prev` leaves behind, and the iff clause holds (vacuously there) as well. -/
theorem c3_amended_witness :
    (pMidPrev.current.isSome = true → pMidPrev.control_pipe = true) ∧
    ((Player.new.current.isSome = Player.new.control_pipe) ∧
     ((pMidPrev.cmd env0 Cmd.Stop).1.current.isSome = true →
       (pMidPrev.cmd env0 Cmd.Stop).1.control_pipe = true) ∧
     (pMidPrev.current.isSome = pMidPrev.control_pipe → Cmd.Stop ≠ Cmd.Prev →
       (pMidPrev.cmd env0 Cmd.Stop).1.current.isSome =
         (pMidPrev.cmd env0 Cmd.Stop).1.control_pipe)) :=
  ⟨by decide, c3_amended pMidPrev env0 Cmd.Stop (by decide)⟩

/-! ### C7 -/

/-- The state `prev` has built right before its final `if`: `current` taken
onto the playlist, the newest history entry `h` moved on top of it, the start
time consumed. -/
def prevMid (p : Player) (c h : Song) (hs : List Song) : Player :=
  { p with current := none, last_start := none,
           history := hs, playlist := p.playlist ++ [c, h] }

/-- C7: when `prev` runs with `current = some c`, `last_start` present with at
most 2 seconds elapsed, and a history ending in `h`, it pushes `c` onto the
playlist, moves `h` from the history onto the playlist above `c`, and — the
playlist being non-empty — invokes `next()` on exactly that state; the next
two `choose_song` calls from that state return `h` first and then `c`. -/
theorem c7_prev (p : Player) (e : Env) (r : Nat) (c h : Song) (hs : List Song) (t : Nat)
    (hcur : p.current = some c) (hls : p.last_start = some t)
    (helapsed : e.now - t ≤ 2000) (hhist : p.history = hs ++ [h]) :
    p.prev e = (prevMid p c h hs).next e ∧
    ((prevMid p c h hs).choose_song r).1 = some h ∧
    (((prevMid p c h hs).choose_song r).2.choose_song r).1 = some c ∧
    (prevMid p c h hs).playlist ≠ [] := by
  have hrestart : (decide (e.now - t > 2000)) = false := by simp; omega
  have hassoc : p.playlist ++ [c, h] = (p.playlist ++ [c]) ++ [h] := by simp
  refine ⟨?_, ?_, ?_, ?_⟩
  · simp only [Player.prev, hcur, hls, hhist, hrestart, List.getLast?_concat,
      List.dropLast_concat, prevMid, hassoc]
    simp
  · simp only [Player.choose_song, prevMid, hassoc, List.getLast?_concat]
  · simp only [Player.choose_song, prevMid, hassoc, List.getLast?_concat,
      List.dropLast_concat]
  · simp [prevMid]

/-- Playing-state input for the C7 witness. -/
def p7 : Player :=
  { Player.new with current := some "c", last_start := some 0,
                    history := ["h"], control_pipe := true }

/-- C7 witness: current `"c"` started at time 0, `prev` at time 0, history
`["h"]`. -/
theorem c7_prev_witness :
    p7.current = some "c" ∧ p7.last_start = some 0 ∧ env0.now - 0 ≤ 2000 ∧
    p7.history = [] ++ ["h"] ∧
    (p7.prev env0 = (prevMid p7 "c" "h" []).next env0 ∧
     ((prevMid p7 "c" "h" []).choose_song 0).1 = some "h" ∧
     (((prevMid p7 "c" "h" []).choose_song 0).2.choose_song 0).1 = some "c" ∧
     (prevMid p7 "c" "h" []).playlist ≠ []) :=
  ⟨rfl, rfl, by decide, rfl, c7_prev p7 env0 0 "c" "h" [] 0 rfl rfl (by decide) rfl⟩

/-! ### C8 -/

/-- C8: when `start` runs from Idle (no pipe, no current, no start time) with
a song available and the spawn failing, it clears `should_play` and leaves
`current`, `control_pipe` and `last_start` all `none` — the state stays Idle
and the operation is total. -/
theorem c8_spawn_failure (p : Player) (e : Env)
    (hpipe : p.control_pipe = false) (hcur : p.current = none)
    (hls : p.last_start = none) (hspawn : e.spawnOk = false)
    (hsong : (p.choose_song e.rand).1.isSome = true) :
    (p.start e).1.should_play = false ∧
    (p.start e).1.current = none ∧
    (p.start e).1.control_pipe = false ∧
    (p.start e).1.last_start = none := by
  obtain ⟨-, -, -, hqc, -, hqp, hql⟩ := choose_song_frame e.rand p
  rcases hcs : p.choose_song e.rand with ⟨_ | s, q⟩ <;>
    rw [hcs] at hqc hqp hql <;> simp only at hqc hqp hql
  · rw [hcs] at hsong; simp at hsong
  · simp [Player.start, hcs, hspawn, hqc, hcur, hqp, hpipe, hql, hls]

/-- Idle state with one song, for the C8 witness. -/
def idleA : Player :=
  { Player.new with songs := ["a"], mode := Mode.Sequence }

/-- Environment whose spawn fails, for the C8 witness. -/
def envFail : Env := { rand := 0, spawnOk := false, now := 5 }

/-- C8 witness: Idle state with `songs = [a]`, spawn failing. -/
theorem c8_spawn_failure_witness :
    idleA.control_pipe = false ∧ idleA.current = none ∧ idleA.last_start = none ∧
    envFail.spawnOk = false ∧ (idleA.choose_song envFail.rand).1.isSome = true ∧
    ((idleA.start envFail).1.should_play = false ∧
     (idleA.start envFail).1.current = none ∧
     (idleA.start envFail).1.control_pipe = false ∧
     (idleA.start envFail).1.last_start = none) :=
  ⟨rfl, rfl, rfl, rfl, rfl, c8_spawn_failure idleA envFail rfl rfl rfl rfl rfl⟩

/-! ### C9 -/

/-- C9: processing `Stop` then `Confirm` in FIFO order produces the quit
directive (when a pipe was live) strictly before the acknowledgment, and both
at the moment the acknowledgment is emitted and at the end of the queue
`should_play` is false — `Confirm` itself changes no state, so the state at
the acknowledgment is exactly the post-`Stop` state. -/
theorem c9_stop_confirm (p : Player) (e1 e2 : Env) :
    (runCmds p [(Cmd.Stop, e1), (Cmd.Confirm, e2)]).2 =
      (if p.control_pipe then [Event.ctl "quit\n"] else []) ++ [Event.ack] ∧
    (p.cmd e1 Cmd.Stop).1.should_play = false ∧
    (runCmds p [(Cmd.Stop, e1), (Cmd.Confirm, e2)]).1 = (p.cmd e1 Cmd.Stop).1 := by
  by_cases hp : p.control_pipe <;>
    simp [runCmds, Player.cmd, Player.stop, Player.stop_song, Player.send_mpv, hp]

/-! ### C10 -/

/-- C10: processing `Done` with `current = none` (as `prev` leaves it while
the subprocess is still live) appends nothing to the history, still clears
`control_pipe` and `last_start`, and still auto-invokes `start` exactly when
`should_play` is true — a song interrupted via `prev` never enters the
history. -/
theorem c10_done_after_prev (p : Player) (e : Env) (hcur : p.current = none) :
    (p.done e).1.history = p.history ∧
    (p.should_play = true →
      p.done e = Player.start e { p with control_pipe := false, last_start := none }) ∧
    (p.should_play = false →
      p.done e = ({ p with control_pipe := false, last_start := none }, [])) := by
  have hsplit : ∀ (b : Bool) (q : Player),
      ((if b = true then q.start e else (q, [])).1).history = q.history := by
    intro b q
    split
    · exact start_history e q
    · rfl
  refine ⟨by simp [Player.done, hcur, hsplit], ?_, ?_⟩
  · intro hsp
    simp [Player.done, hcur, hsp]
  · intro hsp
    simp [Player.done, hcur, hsp]

/-- The state `prev` leaves behind while the subprocess still runs: `current`
already moved to the playlist, pipe live, playback requested. -/
def pAfterPrev : Player :=
  { Player.new with playlist := ["a"], should_play := true,
                    control_pipe := true, last_start := some 3 }

/-- C10 witness at the state `prev` leaves behind. -/
theorem c10_done_after_prev_witness :
    pAfterPrev.current = none ∧
    ((pAfterPrev.done env0).1.history = pAfterPrev.history ∧
     (pAfterPrev.should_play = true →
       pAfterPrev.done env0 =
         Player.start env0 { pAfterPrev with control_pipe := false, last_start := none }) ∧
     (pAfterPrev.should_play = false →
       pAfterPrev.done env0 =
         ({ pAfterPrev with control_pipe := false, last_start := none }, []))) :=
  ⟨rfl, c10_done_after_prev pAfterPrev env0 rfl⟩
